import Mathlib

/-!
Shallow embedding of the organcontroller stop-routing engine.

The definitions below are translated from the repository's Python source:
  * `src/logic/stops.py` (`StopRouter`)
  * `src/logic/input_mapper.py` (`InputMapper`)
  * `src/master/actions.py` (`Actions`)

Python dicts are modelled as association lists (`dictGet` returns the first
binding; the code never stores duplicate keys), python sets as lists with
membership-guarded insertion, and MIDI note numbers / velocities / channels as
unbounded integers, matching python's `int`.  Timestamps stored in
`active_keys` are dropped: only key presence is ever observed by the router.
String helpers (`splitChar`, `strLower`, ...) re-implement the python string
operations structurally so that they evaluate inside the kernel; whitespace
splitting of python's `str.split()` is modelled on the space character, which
is the only whitespace appearing in MIDI address strings.
-/

namespace Organ

/-- Python `s.split(sep)` on a single character, keeping empty fields. -/
def splitChar (sep : Char) : List Char → List (List Char)
  | [] => [[]]
  | c :: cs =>
    let r := splitChar sep cs
    if c = sep then [] :: r
    else
      match r with
      | [] => [[c]]
      | w :: ws => (c :: w) :: ws

/-- Joins words with a separator character; inverse-of-split helper used to
model python's `':'.join(parts)`. -/
def joinWith (sep : Char) : List (List Char) → List Char
  | [] => []
  | [w] => w
  | w :: ws => w ++ sep :: joinWith sep ws

/-- Python `s.split(sep, 1)`: split at the first occurrence only.  When the
separator is absent the code would raise on tuple unpacking; call sites only
pass ids that contain the separator, so the second component is then empty. -/
def splitFirst (sep : Char) (s : String) : String × String :=
  match splitChar sep s.data with
  | [] => (s, "")
  | [w] => (w.asString, "")
  | w :: rest => (w.asString, (joinWith sep rest).asString)

/-- ASCII lower-casing of one character, as python `str.lower` does for the
identifiers appearing in the configuration. -/
def lowerChar (c : Char) : Char :=
  if 'A' ≤ c ∧ c ≤ 'Z' then Char.ofNat (c.toNat + 32) else c

/-- Python `s.lower()` (ASCII). -/
def strLower (s : String) : String :=
  (s.data.map lowerChar).asString

/-- ASCII upper-casing of one character, as python `str.upper`. -/
def upperChar (c : Char) : Char :=
  if 'a' ≤ c ∧ c ≤ 'z' then Char.ofNat (c.toNat - 32) else c

/-- Python `s.upper()` (ASCII). -/
def strUpper (s : String) : String :=
  (s.data.map upperChar).asString

/-- Python `s1.startswith(s2)` (here: `s2` leads `s1`), on char lists. -/
def leadsWith : List Char → List Char → Bool
  | [], _ => true
  | _ :: _, [] => false
  | a :: as, b :: bs => a == b && leadsWith as bs

/-- Value of a decimal digit character, `none` for a non-digit. -/
def digitVal (c : Char) : Option Nat :=
  if '0' ≤ c ∧ c ≤ '9' then some (c.toNat - '0'.toNat) else none

/-- Decimal parse of a non-empty digit string; `none` mirrors python `int()`
raising `ValueError`. -/
def digitsToNat : List Char → Option Nat
  | [] => none
  | cs =>
    cs.foldl
      (fun acc c =>
        match acc, digitVal c with
        | some n, some d => some (n * 10 + d)
        | _, _ => none)
      (some 0)

/-- Python `int(s)` for the channel fields of MIDI address strings. -/
def strToInt (s : String) : Option Int :=
  match s.data with
  | '-' :: rest => (digitsToNat rest).map (fun n => -(n : Int))
  | cs => (digitsToNat cs).map (fun n => (n : Int))

/-- First-binding lookup on an association list (python dict access). -/
def dictGet {α β : Type} [DecidableEq α] : List (α × β) → α → Option β
  | [], _ => none
  | (k', v) :: rest, k => if k' = k then some v else dictGet rest k

/-- Python dict assignment `d[k] = v`: overwrite in place, else append. -/
def dictInsert {α β : Type} [DecidableEq α] (l : List (α × β)) (k : α) (v : β) :
    List (α × β) :=
  if (dictGet l k).isSome then
    l.map (fun p => if p.1 = k then (k, v) else p)
  else l ++ [(k, v)]

/-- Python `d.pop(k, None)`. -/
def dictErase {α β : Type} [DecidableEq α] (l : List (α × β)) (k : α) :
    List (α × β) :=
  l.filter (fun p => p.1 ≠ k)

/-- Python `set.add`. -/
def setAdd (l : List String) (x : String) : List String :=
  if x ∈ l then l else l ++ [x]

/-- Python `set.remove`. -/
def setRemove (l : List String) (x : String) : List String :=
  l.filter (fun y => y ≠ x)

/-- Insertion of a held key; `active_keys[(division, note)] = timestamp` only
changes presence when the key is new. -/
def keySetAdd (l : List (String × Int)) (k : String × Int) : List (String × Int) :=
  if k ∈ l then l else l ++ [k]

/-- Removal of a held key, python `active_keys.pop((division, note), None)`. -/
def keySetRemove (l : List (String × Int)) (k : String × Int) : List (String × Int) :=
  l.filter (fun p => p ≠ k)

/-- One rank coupling of a stop (an entry of `stop_info['ranks']` in
`stops.yaml`); `none` fields model absent dict keys read via `.get`. -/
structure RankConfig where
  rank : String
  transpose : Option Int
  velocity_min : Option Int
  velocity_max : Option Int
  deriving DecidableEq

/-- Catalog data of one rank (an entry of `ranks.yaml`). -/
structure RankInfo where
  c4_pitch_note : Option Int
  first_note : Option Int
  last_note : Option Int
  midi_address : String
  deriving DecidableEq

/-- Catalog data of one stop: its list of rank couplings
(`stop_info.get('ranks', [])`). -/
structure StopInfo where
  ranks : List RankConfig
  deriving DecidableEq

/-- Static configuration of the router, as loaded at startup:
`stops_config` maps a division name to its stops, `ranks` is the merged
physical+virtual rank table, `port_to_output_map` maps "client:port" strings
to output names, and `midi_outputs` lists the opened output names. -/
structure Config where
  stops_config : List (String × List (String × StopInfo))
  ranks : List (String × RankInfo)
  port_to_output_map : List (String × String)
  midi_outputs : List String
  deriving DecidableEq

/-- Mutable controller state: `active_stops` (internal "division:STOP" ids),
`active_keys` (held (division, note) pairs) and `active_rank_notes`
((output, channel, note) ↦ rank_id). -/
structure RouterState where
  active_stops : List String
  active_keys : List (String × Int)
  active_rank_notes : List ((String × Int × Int) × String)
  deriving DecidableEq

/-- A note command emitted to the output boundary by `_send_to_rank`:
the mido message fields plus the rank id the send targets (the code records
the rank id in `active_rank_notes` and in its log line). -/
structure MidiCmd where
  rank : String
  output : String
  channel : Int
  note : Int
  velocity : Int
  isOn : Bool
  deriving DecidableEq

/-- A control-change command, as emitted by `Actions.panic`. -/
structure CCCmd where
  output : String
  channel : Int
  control : Int
  value : Int
  deriving DecidableEq

/-- The (rank_id, rank_native_note) identity of a note command, the key on
which the router deduplicates. -/
def cmdPair (cmd : MidiCmd) : String × Int := (cmd.rank, cmd.note)

/-- Range check from `StopRouter.process_note_on`: keep the note unless it is
below `first_note` or above `last_note`; a missing bound does not constrain. -/
def rankNoteInRange (rank_info : RankInfo) (rank_note : Int) : Bool :=
  (match rank_info.first_note with
   | some f => decide (f ≤ rank_note)
   | none => true) &&
  (match rank_info.last_note with
   | some l => decide (rank_note ≤ l)
   | none => true)

/-- Velocity clamping from `StopRouter._send_to_rank`:
`max(velocity_min, min(velocity_max, velocity))` with defaults 1 and 127. -/
def clampVelocity (rank_config : RankConfig) (velocity : Int) : Int :=
  let velocity_min := rank_config.velocity_min.getD 1
  let velocity_max := rank_config.velocity_max.getD 127
  max velocity_min (min velocity_max velocity)

/-- MIDI address parsing from `_send_to_rank`: an address
`"device label client:port:channel"` yields `(client_port, channel)`;
each malformed shape that the code rejects with a warning yields `none`. -/
def parseMidiAddress (midi_address : String) : Option (String × Int) :=
  if midi_address = "" then none
  else
    let parts := (splitChar ' ' midi_address.data).filter (fun w => w ≠ [])
    if parts.length < 2 then none
    else
      match parts.getLast? with
      | none => none
      | some last =>
        let addr_parts := splitChar ':' last
        if addr_parts.length < 3 then none
        else
          match addr_parts.getLast? with
          | none => none
          | some chWord =>
            match strToInt chWord.asString with
            | none => none
            | some channel =>
              some ((joinWith ':' addr_parts.dropLast).asString, channel)

/-- Output resolution chain of `_send_to_rank`: parse the rank's address,
look the "client:port" up in `port_to_output_map`, and require the resulting
name to be non-empty and among the opened outputs. -/
def resolveOutput (cfg : Config) (rank_info : RankInfo) : Option (String × Int) :=
  match parseMidiAddress rank_info.midi_address with
  | none => none
  | some (client_port, channel) =>
    match dictGet cfg.port_to_output_map client_port with
    | none => none
    | some output_name =>
      if output_name = "" ∨ output_name ∉ cfg.midi_outputs then none
      else some (output_name, channel)

/-- `StopRouter._send_to_rank`: clamp velocity for a note-on, resolve the
output address, emit one message and update `active_rank_notes` (insert on
note-on, erase on note-off); every failed resolution step drops the note. -/
def sendToRank (cfg : Config) (st : RouterState) (rank_id : String)
    (rank_info : RankInfo) (rank_config : RankConfig) (note velocity : Int)
    (is_note_on : Bool) : RouterState × List MidiCmd :=
  let v := if is_note_on then clampVelocity rank_config velocity else velocity
  match resolveOutput cfg rank_info with
  | none => (st, [])
  | some (output_name, channel) =>
    let note_key := (output_name, channel, note)
    let st' :=
      if is_note_on then
        { st with active_rank_notes := dictInsert st.active_rank_notes note_key rank_id }
      else
        { st with active_rank_notes := dictErase st.active_rank_notes note_key }
    (st', [⟨rank_id, output_name, channel, note, v, is_note_on⟩])

/-- The per-coupling body shared verbatim by `process_note_on`,
`process_note_off` and `_route_note_through_stop`: transpose, look up the
rank, re-center on `c4_pitch_note`, range-check, deduplicate against `sent`,
and send. -/
def processCoupling (cfg : Config) (st : RouterState) (sent : List (String × Int))
    (rank_config : RankConfig) (note velocity : Int) (is_note_on : Bool) :
    RouterState × List (String × Int) × List MidiCmd :=
  let rank_id := rank_config.rank
  let target_pitch := note + rank_config.transpose.getD 0
  match dictGet cfg.ranks rank_id with
  | none => (st, sent, [])
  | some rank_info =>
    match rank_info.c4_pitch_note with
    | none => (st, sent, [])
    | some c4_pitch_note =>
      let rank_note := target_pitch + (c4_pitch_note - 60)
      if rankNoteInRange rank_info rank_note then
        if (rank_id, rank_note) ∈ sent then (st, sent, [])
        else
          let r := sendToRank cfg st rank_id rank_info rank_config rank_note velocity is_note_on
          (r.1, (rank_id, rank_note) :: sent, r.2)
      else (st, sent, [])

/-- The `for rank_config in stop_info.get('ranks', [])` loop, threading the
dedup set and collecting emitted commands in order. -/
def processCouplings (cfg : Config) (st : RouterState) (sent : List (String × Int))
    (couplings : List RankConfig) (note velocity : Int) (is_note_on : Bool) :
    RouterState × List (String × Int) × List MidiCmd :=
  match couplings with
  | [] => (st, sent, [])
  | rc :: rest =>
    let r1 := processCoupling cfg st sent rc note velocity is_note_on
    let r2 := processCouplings cfg r1.1 r1.2.1 rest note velocity is_note_on
    (r2.1, r2.2.1, r1.2.2 ++ r2.2.2)

/-- Lookup `stops_config[division][stop_name]` where `stop_name` is the part
of the internal id after the first colon. -/
def stopLookup (cfg : Config) (division stop_id : String) : Option StopInfo :=
  match dictGet cfg.stops_config division with
  | none => none
  | some division_stops => dictGet division_stops (splitFirst ':' stop_id).2

/-- `StopRouter._route_note_through_stop`: route one note through one stop's
couplings, with a dedup set local to this call.  A missing config entry would
raise `KeyError` in the code; call sites only pass ids recorded from the
catalog, so it is modelled as producing nothing. -/
def routeNoteThroughStop (cfg : Config) (st : RouterState) (stop_id : String)
    (note velocity : Int) (is_note_on : Bool) : RouterState × List MidiCmd :=
  let division := strLower (splitFirst ':' stop_id).1
  match stopLookup cfg division stop_id with
  | none => (st, [])
  | some stop_info =>
    let r := processCouplings cfg st [] stop_info.ranks note velocity is_note_on
    (r.1, r.2.2)

/-- The `for stop_id in active_division_stops` loop of `process_note_on` /
`process_note_off`, with the dedup set shared across stops within the single
key event.  A stop id whose config entry is missing would raise `KeyError` in
the code and is modelled as skipped. -/
def processStops (cfg : Config) (st : RouterState) (sent : List (String × Int))
    (division : String) (stop_ids : List String) (note velocity : Int)
    (is_note_on : Bool) : RouterState × List (String × Int) × List MidiCmd :=
  match stop_ids with
  | [] => (st, sent, [])
  | stop_id :: rest =>
    match stopLookup cfg division stop_id with
    | none => processStops cfg st sent division rest note velocity is_note_on
    | some stop_info =>
      let r1 := processCouplings cfg st sent stop_info.ranks note velocity is_note_on
      let r2 := processStops cfg r1.1 r1.2.1 division rest note velocity is_note_on
      (r2.1, r2.2.1, r1.2.2 ++ r2.2.2)

/-- The stops of the division currently drawn:
`[s for s in active_stops if s.startswith(division + ":")]`. -/
def activeDivisionStops (st : RouterState) (division : String) : List String :=
  st.active_stops.filter (fun stop_id => leadsWith (division ++ ":").data stop_id.data)

/-- `StopRouter.process_note_on`: if no stop of the division is drawn the key
is ignored, otherwise it is routed through every active stop of the division
with a shared dedup set. -/
def process_note_on (cfg : Config) (st : RouterState) (division0 : String)
    (note velocity : Int) : RouterState × List MidiCmd :=
  let division := strLower division0
  let stops := activeDivisionStops st division
  if stops = [] then (st, [])
  else
    let r := processStops cfg st [] division stops note velocity true
    (r.1, r.2.2)

/-- `StopRouter.process_note_off`: same traversal as `process_note_on` but
emitting note-offs with velocity 0. -/
def process_note_off (cfg : Config) (st : RouterState) (division0 : String)
    (note : Int) : RouterState × List MidiCmd :=
  let division := strLower division0
  let stops := activeDivisionStops st division
  if stops = [] then (st, [])
  else
    let r := processStops cfg st [] division stops note 0 false
    (r.1, r.2.2)

/-- The `for div in ['great', 'swell', 'choir', 'pedal']` lookup loop shared
by `activate_stop` and `deactivate_stop`: first division whose stop table
contains `stop_id`. -/
def findStopDivision (cfg : Config) (stop_id : String) : Option String :=
  (List.filter
    (fun div =>
      match dictGet cfg.stops_config div with
      | none => false
      | some stops => (dictGet stops stop_id).isSome)
    ["great", "swell", "choir", "pedal"]).head?

/-- Replay loop of `activate_stop`: each held key of the division is routed
through the newly activated stop alone, as a note-on at the fixed default
velocity 64. -/
def replayKeys (cfg : Config) (st : RouterState) (internal_id : String) :
    List (String × Int) → RouterState × List MidiCmd
  | [] => (st, [])
  | (_, note) :: rest =>
    let r1 := routeNoteThroughStop cfg st internal_id note 64 true
    let r2 := replayKeys cfg r1.1 internal_id rest
    (r2.1, r1.2 ++ r2.2)

/-- Silence loop of `deactivate_stop`: each held key of the division is routed
through the deactivated stop as a note-off (velocity 0). -/
def silenceKeys (cfg : Config) (st : RouterState) (internal_id : String) :
    List (String × Int) → RouterState × List MidiCmd
  | [] => (st, [])
  | (_, note) :: rest =>
    let r1 := routeNoteThroughStop cfg st internal_id note 0 false
    let r2 := silenceKeys cfg r1.1 internal_id rest
    (r2.1, r1.2 ++ r2.2)

/-- `StopRouter.activate_stop`: find the stop's division (else report
failure), insert the internal id into `active_stops`, and when the stop was
previously inactive replay every held key of the division through it. -/
def activate_stop (cfg : Config) (st : RouterState) (stop_id : String) :
    RouterState × List MidiCmd × Bool :=
  match findStopDivision cfg stop_id with
  | none => (st, [], false)
  | some division =>
    let internal_id := division ++ ":" ++ stop_id
    let was_active := internal_id ∈ st.active_stops
    let st1 := { st with active_stops := setAdd st.active_stops internal_id }
    if was_active then (st1, [], true)
    else
      let held_keys := st1.active_keys.filter (fun p => p.1 = division)
      let r := replayKeys cfg st1 internal_id held_keys
      (r.1, r.2, true)

/-- `StopRouter.deactivate_stop`: find the stop's division (else report
failure); if the stop is active, first silence every held key of the division
through it, then remove it from `active_stops`; otherwise report non-success
without side effects. -/
def deactivate_stop (cfg : Config) (st : RouterState) (stop_id : String) :
    RouterState × List MidiCmd × Bool :=
  match findStopDivision cfg stop_id with
  | none => (st, [], false)
  | some division =>
    let internal_id := division ++ ":" ++ stop_id
    if internal_id ∈ st.active_stops then
      let held_keys := st.active_keys.filter (fun p => p.1 = division)
      let r := silenceKeys cfg st internal_id held_keys
      ({ r.1 with active_stops := setRemove r.1.active_stops internal_id }, r.2, true)
    else (st, [], false)

/-- Message kinds distinguished by `InputMapper.process_message`; `other`
stands for every non-note message kind, all of which are ignored. -/
inductive MsgType where
  | note_on
  | note_off
  | other
  deriving DecidableEq

/-- An incoming mido message, restricted to the fields the mapper reads. -/
structure MidiMsg where
  type : MsgType
  channel : Int
  note : Int
  velocity : Int
  deriving DecidableEq

/-- The lookup tables `InputMapper._build_lookups` derives from
`input_map.yaml`. -/
structure InputConfig where
  manual_channels : List (Int × String)
  manual_ranges : List (Int × (Int × Int))
  pedal_channel : Option Int
  pedal_range : Option (Int × Int)
  stop_channel : Option Int
  stop_mappings : List (Int × (String × String))
  deriving DecidableEq

/-- `InputMapper._handle_key_event`: a note-on with positive velocity records
the key and routes a note-on; anything else (note-off, or note-on with
velocity 0) removes the key and routes a note-off. -/
def handle_key_event (cfg : Config) (st : RouterState) (division : String)
    (note velocity : Int) (msg_type : MsgType) : RouterState × List MidiCmd :=
  if msg_type = .note_on ∧ velocity > 0 then
    let st1 := { st with active_keys := keySetAdd st.active_keys (division, note) }
    process_note_on cfg st1 division note velocity
  else
    let st1 := { st with active_keys := keySetRemove st.active_keys (division, note) }
    process_note_off cfg st1 division note

/-- `InputMapper._handle_stop_event`: look the note up in the stop-mapping
table and call the router with the string `f"{division}:{stop_id}"`.  The
table lookup cannot fail at the call site (guarded in `process_message`). -/
def handle_stop_event (icfg : InputConfig) (cfg : Config) (st : RouterState)
    (note : Int) (msg_type : MsgType) : RouterState × List MidiCmd :=
  match dictGet icfg.stop_mappings note with
  | none => (st, [])
  | some (division, stop_id) =>
    if msg_type = .note_on then
      let r := activate_stop cfg st (division ++ ":" ++ stop_id)
      (r.1, r.2.1)
    else
      let r := deactivate_stop cfg st (division ++ ":" ++ stop_id)
      (r.1, r.2.1)

/-- `InputMapper.process_message`: classify by channel into a manual key
event, a pedal key event, a stop event, or a discard; out-of-range notes on
manual/pedal channels (pistons) are discarded. -/
def process_message (icfg : InputConfig) (cfg : Config) (st : RouterState)
    (msg : MidiMsg) : RouterState × List MidiCmd :=
  if msg.type = .other then (st, [])
  else
    match dictGet icfg.manual_channels msg.channel with
    | some division =>
      match dictGet icfg.manual_ranges msg.channel with
      | none => (st, [])
      | some (first_key, last_key) =>
        if first_key ≤ msg.note ∧ msg.note ≤ last_key then
          handle_key_event cfg st division msg.note msg.velocity msg.type
        else (st, [])
    | none =>
      if icfg.pedal_channel = some msg.channel then
        match icfg.pedal_range with
        | none => (st, [])
        | some (first_key, last_key) =>
          if first_key ≤ msg.note ∧ msg.note ≤ last_key then
            handle_key_event cfg st "pedal" msg.note msg.velocity msg.type
          else (st, [])
      else if icfg.stop_channel = some msg.channel then
        if (dictGet icfg.stop_mappings msg.note).isSome then
          handle_stop_event icfg cfg st msg.note msg.type
        else (st, [])
      else (st, [])

/-- The flat `stop_index` built at startup in `main.py`: stop id ↦ stop data
over the divisions in order, later divisions overwriting duplicates. -/
def stopIndex (cfg : Config) : List (String × StopInfo) :=
  ((["great", "swell", "choir", "pedal"].flatMap
      (fun div => (dictGet cfg.stops_config div).getD [])).foldl
    (fun acc p => dictInsert acc p.1 p.2) [])

/-- Case-insensitive stop resolution shared by `Actions.activate_stop` and
`Actions.deactivate_stop`: try the upper-cased id in the index directly, then
scan for an index key whose upper-casing matches; returns the catalog key the
router is then called with. -/
def resolveStopId (cfg : Config) (stop_id : String) : Option String :=
  let upper := strUpper stop_id
  match dictGet (stopIndex cfg) upper with
  | some _ => some upper
  | none =>
    (((stopIndex cfg).filter (fun p => strUpper p.1 = upper)).head?).map (fun p => p.1)

/-- `Actions.deactivate_stop`: resolve the id case-insensitively (reporting
an unknown-stop failure when absent), then delegate to the router; the
router's `False` is rendered as the non-fatal "Stop not active" failure. -/
def actions_deactivate_stop (cfg : Config) (st : RouterState) (stop_id : String) :
    RouterState × List MidiCmd × Bool :=
  match resolveStopId cfg stop_id with
  | none => (st, [], false)
  | some sid => deactivate_stop cfg st sid

/-- The 16 MIDI channels iterated by `Actions.panic`. -/
def chans16 : List Int := (List.range 16).map (fun n => (n : Int))

/-- `Actions.panic`: for every opened output and every channel 0-15 send
all-notes-off (CC 123), all-sound-off (CC 120) and reset-all-controllers
(CC 121), then clear `active_keys` and `active_rank_notes` (drawn stops are
left as they are). -/
def panic (cfg : Config) (st : RouterState) : RouterState × List CCCmd :=
  let cmds :=
    cfg.midi_outputs.flatMap (fun output_name =>
      chans16.flatMap (fun channel =>
        [⟨output_name, channel, 123, 0⟩,
         ⟨output_name, channel, 120, 0⟩,
         ⟨output_name, channel, 121, 0⟩]))
  ({ st with active_keys := [], active_rank_notes := [] }, cmds)

/-- The pure pitch/range computation of one coupling: `rc` maps the played
`note` to the pair `p = (rank_id, rank_native_note)` and `p` passes the
range check of its rank. -/
def couplingComputesPair (cfg : Config) (rc : RankConfig) (note : Int)
    (p : String × Int) : Bool :=
  rc.rank = p.1 &&
  (match dictGet cfg.ranks rc.rank with
   | none => false
   | some rank_info =>
     match rank_info.c4_pitch_note with
     | none => false
     | some c4 =>
       decide (note + rc.transpose.getD 0 + (c4 - 60) = p.2) &&
       rankNoteInRange rank_info p.2)

/-- Some coupling of the stop `stop_id` (looked up for `division`) computes
the pair `p` from the played `note`. -/
def stopComputesPair (cfg : Config) (division stop_id : String) (note : Int)
    (p : String × Int) : Bool :=
  match stopLookup cfg division stop_id with
  | none => false
  | some stop_info => stop_info.ranks.any (fun rc => couplingComputesPair cfg rc note p)

/-- The rank exists in the catalog and its MIDI address resolves to an opened
output, so that `_send_to_rank` actually emits. -/
def rankResolves (cfg : Config) (rank_id : String) : Bool :=
  match dictGet cfg.ranks rank_id with
  | none => false
  | some rank_info => (resolveOutput cfg rank_info).isSome

/-- What `processCoupling` guarantees about any command it emits for the
coupling `rc`: the note is the played note shifted by the coupling transpose
and re-centered on the rank's `c4_pitch_note`, it passes the rank's range
check, and the velocity is the clamped input velocity (for a note-on). -/
def CmdFromCoupling (cfg : Config) (rc : RankConfig) (note velocity : Int)
    (b : Bool) (cmd : MidiCmd) : Prop :=
  ∃ rank_info c4,
    dictGet cfg.ranks rc.rank = some rank_info ∧
    rank_info.c4_pitch_note = some c4 ∧
    cmd.rank = rc.rank ∧
    cmd.note = note + rc.transpose.getD 0 + (c4 - 60) ∧
    rankNoteInRange rank_info cmd.note = true ∧
    cmd.velocity = (if b then clampVelocity rc velocity else velocity) ∧
    cmd.isOn = b

/-- Test fixture: a coupling of rank R1 with no transpose and the full
velocity range. -/
def rc0 : RankConfig := ⟨"R1", some 0, some 1, some 127⟩

/-- Test fixture: three stops A, B, PRINCIPAL_8 on the great division, all
coupling rank R1 (pitch reference 60, range [36, 96], address resolving to
output "flu" channel 5). -/
def cfg1 : Config :=
  { stops_config := [("great", [("A", ⟨[rc0]⟩), ("B", ⟨[rc0]⟩), ("PRINCIPAL_8", ⟨[rc0]⟩)])]
    ranks := [("R1", ⟨some 60, some 36, some 96, "Flu FS 128:0:5"⟩)]
    port_to_output_map := [("128:0", "flu")]
    midi_outputs := ["flu"] }

/-- Test fixture: stops A and B drawn, key 60 held on the great division. -/
def st1 : RouterState := ⟨["great:A", "great:B"], [("great", 60)], []⟩

/-- Test fixture: the empty state. -/
def st0 : RouterState := ⟨[], [], []⟩

/-- Test fixture: input map with the great manual on channel 0 (keys 36-96),
the pedal on channel 3 (keys 36-67), and the stop board on channel 5 with
note 36 mapped to the great PRINCIPAL_8 stop. -/
def icfg1 : InputConfig :=
  { manual_channels := [(0, "great")]
    manual_ranges := [(0, (36, 96))]
    pedal_channel := some 3
    pedal_range := some (36, 67)
    stop_channel := some 5
    stop_mappings := [(36, ("great", "PRINCIPAL_8"))] }

theorem sendToRank_active_keys (cfg : Config) (st : RouterState) (rank_id : String)
    (rank_info : RankInfo) (rank_config : RankConfig) (note velocity : Int) (b : Bool) :
    (sendToRank cfg st rank_id rank_info rank_config note velocity b).1.active_keys =
      st.active_keys := by
  unfold sendToRank
  cases resolveOutput cfg rank_info with
  | none => rfl
  | some p => cases p with
    | mk o ch => cases b <;> rfl

theorem sendToRank_active_stops (cfg : Config) (st : RouterState) (rank_id : String)
    (rank_info : RankInfo) (rank_config : RankConfig) (note velocity : Int) (b : Bool) :
    (sendToRank cfg st rank_id rank_info rank_config note velocity b).1.active_stops =
      st.active_stops := by
  unfold sendToRank
  cases resolveOutput cfg rank_info with
  | none => rfl
  | some p => cases p with
    | mk o ch => cases b <;> rfl

theorem sendToRank_cmds_none (cfg : Config) (st : RouterState) (rank_id : String)
    (rank_info : RankInfo) (rank_config : RankConfig) (note velocity : Int) (b : Bool)
    (h : resolveOutput cfg rank_info = none) :
    sendToRank cfg st rank_id rank_info rank_config note velocity b = (st, []) := by
  unfold sendToRank
  rw [h]

theorem sendToRank_cmds_some (cfg : Config) (st : RouterState) (rank_id : String)
    (rank_info : RankInfo) (rank_config : RankConfig) (note velocity : Int) (b : Bool)
    (o : String) (ch : Int) (h : resolveOutput cfg rank_info = some (o, ch)) :
    (sendToRank cfg st rank_id rank_info rank_config note velocity b).2 =
      [⟨rank_id, o, ch, note, if b then clampVelocity rank_config velocity else velocity, b⟩] := by
  unfold sendToRank
  rw [h]

theorem processCoupling_active_keys (cfg : Config) (st : RouterState)
    (sent : List (String × Int)) (rc : RankConfig) (note velocity : Int) (b : Bool) :
    (processCoupling cfg st sent rc note velocity b).1.active_keys = st.active_keys := by
  cases hri : dictGet cfg.ranks rc.rank with
  | none => simp [processCoupling, hri]
  | some rank_info =>
    cases hc4 : rank_info.c4_pitch_note with
    | none => simp [processCoupling, hri, hc4]
    | some c4 =>
      simp only [processCoupling, hri, hc4]
      split
      · split
        · rfl
        · exact sendToRank_active_keys ..
      · rfl

theorem processCoupling_active_stops (cfg : Config) (st : RouterState)
    (sent : List (String × Int)) (rc : RankConfig) (note velocity : Int) (b : Bool) :
    (processCoupling cfg st sent rc note velocity b).1.active_stops = st.active_stops := by
  cases hri : dictGet cfg.ranks rc.rank with
  | none => simp [processCoupling, hri]
  | some rank_info =>
    cases hc4 : rank_info.c4_pitch_note with
    | none => simp [processCoupling, hri, hc4]
    | some c4 =>
      simp only [processCoupling, hri, hc4]
      split
      · split
        · rfl
        · exact sendToRank_active_stops ..
      · rfl

theorem processCoupling_spec (cfg : Config) (st : RouterState)
    (sent : List (String × Int)) (rc : RankConfig) (note velocity : Int) (b : Bool) :
    processCoupling cfg st sent rc note velocity b = (st, sent, []) ∨
    ∃ p, couplingComputesPair cfg rc note p = true ∧ p ∉ sent ∧
      (processCoupling cfg st sent rc note velocity b).2.1 = p :: sent ∧
      (((processCoupling cfg st sent rc note velocity b).2.2 = [] ∧
          rankResolves cfg p.1 = false) ∨
        ∃ cmd, (processCoupling cfg st sent rc note velocity b).2.2 = [cmd] ∧
          cmdPair cmd = p ∧ CmdFromCoupling cfg rc note velocity b cmd) := by
  cases hri : dictGet cfg.ranks rc.rank with
  | none => simp [processCoupling, hri]
  | some rank_info =>
    cases hc4 : rank_info.c4_pitch_note with
    | none => simp [processCoupling, hri, hc4]
    | some c4 =>
      simp only [processCoupling, hri, hc4]
      split
      · rename_i hrange
        split
        · exact Or.inl rfl
        · rename_i hmem
          refine Or.inr ⟨(rc.rank, note + rc.transpose.getD 0 + (c4 - 60)), ?_, hmem, rfl, ?_⟩
          · simp [couplingComputesPair, hri, hc4, hrange]
          · cases hres : resolveOutput cfg rank_info with
            | none =>
              refine Or.inl ⟨?_, ?_⟩
              · simp [sendToRank_cmds_none cfg st rc.rank rank_info rc _ velocity b hres]
              · simp [rankResolves, hri, hres]
            | some pr =>
              cases pr with
              | mk o ch =>
                refine Or.inr ⟨⟨rc.rank, o, ch, note + rc.transpose.getD 0 + (c4 - 60),
                  if b then clampVelocity rc velocity else velocity, b⟩, ?_, rfl, ?_⟩
                · simp [sendToRank_cmds_some cfg st rc.rank rank_info rc _ velocity b o ch hres]
                · exact ⟨rank_info, c4, hri, hc4, rfl, rfl, hrange, rfl, rfl⟩
      · exact Or.inl rfl

theorem couplingComputesPair_unique (cfg : Config) (rc : RankConfig) (note : Int)
    (p q : String × Int) (hp : couplingComputesPair cfg rc note p = true)
    (hq : couplingComputesPair cfg rc note q = true) : p = q := by
  cases hri : dictGet cfg.ranks rc.rank with
  | none => simp [couplingComputesPair, hri] at hp
  | some rank_info =>
    cases hc4 : rank_info.c4_pitch_note with
    | none => simp [couplingComputesPair, hri, hc4] at hp
    | some c4 =>
      simp only [couplingComputesPair, hri, hc4, Bool.and_eq_true,
        decide_eq_true_eq] at hp hq
      obtain ⟨hp1, hp2, _⟩ := hp
      obtain ⟨hq1, hq2, _⟩ := hq
      cases p; cases q
      simp only at hp1 hp2 hq1 hq2
      simp [← hp1, ← hq1, ← hp2, ← hq2]

theorem processCoupling_sent_mono (cfg : Config) (st : RouterState)
    (sent : List (String × Int)) (rc : RankConfig) (note velocity : Int) (b : Bool)
    (q : String × Int) (hq : q ∈ sent) :
    q ∈ (processCoupling cfg st sent rc note velocity b).2.1 := by
  rcases processCoupling_spec cfg st sent rc note velocity b with h | ⟨p, _, _, hs, _⟩
  · rw [h]; exact hq
  · rw [hs]; exact List.mem_cons_of_mem _ hq

theorem processCoupling_sent_char (cfg : Config) (st : RouterState)
    (sent : List (String × Int)) (rc : RankConfig) (note velocity : Int) (b : Bool)
    (q : String × Int) (hq : q ∈ (processCoupling cfg st sent rc note velocity b).2.1) :
    q ∈ sent ∨ couplingComputesPair cfg rc note q = true := by
  rcases processCoupling_spec cfg st sent rc note velocity b with h | ⟨p, hc, _, hs, _⟩
  · rw [h] at hq; exact Or.inl hq
  · rw [hs] at hq
    rcases List.mem_cons.mp hq with h1 | h1
    · exact Or.inr (h1 ▸ hc)
    · exact Or.inl h1

theorem processCoupling_exists (cfg : Config) (st : RouterState)
    (sent : List (String × Int)) (rc : RankConfig) (note velocity : Int) (b : Bool)
    (p : String × Int) (hcomp : couplingComputesPair cfg rc note p = true)
    (hnot : p ∉ sent) (hres : rankResolves cfg p.1 = true) :
    ∃ cmd, (processCoupling cfg st sent rc note velocity b).2.2 = [cmd] ∧
      cmdPair cmd = p ∧ cmd.isOn = b := by
  rcases p with ⟨pa, pb⟩
  cases hri : dictGet cfg.ranks rc.rank with
  | none => simp [couplingComputesPair, hri] at hcomp
  | some rank_info =>
    cases hc4 : rank_info.c4_pitch_note with
    | none => simp [couplingComputesPair, hri, hc4] at hcomp
    | some c4 =>
      simp only [couplingComputesPair, hri, hc4, Bool.and_eq_true, decide_eq_true_eq] at hcomp
      obtain ⟨h1, h2, h3⟩ := hcomp
      subst h1
      subst h2
      simp only [rankResolves, hri] at hres
      rw [Option.isSome_iff_exists] at hres
      obtain ⟨pr, hpr⟩ := hres
      rcases pr with ⟨o, ch⟩
      simp only [processCoupling, hri, hc4, h3, if_true]
      rw [if_neg hnot]
      exact ⟨_, sendToRank_cmds_some cfg st rc.rank rank_info rc _ velocity b o ch hpr,
        rfl, rfl⟩

theorem processCouplings_active_keys (cfg : Config) (couplings : List RankConfig)
    (note velocity : Int) (b : Bool) : ∀ (st : RouterState) (sent : List (String × Int)),
    (processCouplings cfg st sent couplings note velocity b).1.active_keys =
      st.active_keys := by
  induction couplings with
  | nil => intro st sent; rfl
  | cons rc rest ih =>
    intro st sent
    simp only [processCouplings]
    rw [ih, processCoupling_active_keys]

theorem processCouplings_active_stops (cfg : Config) (couplings : List RankConfig)
    (note velocity : Int) (b : Bool) : ∀ (st : RouterState) (sent : List (String × Int)),
    (processCouplings cfg st sent couplings note velocity b).1.active_stops =
      st.active_stops := by
  induction couplings with
  | nil => intro st sent; rfl
  | cons rc rest ih =>
    intro st sent
    simp only [processCouplings]
    rw [ih, processCoupling_active_stops]

theorem processCouplings_sent_mono (cfg : Config) (couplings : List RankConfig)
    (note velocity : Int) (b : Bool) :
    ∀ (st : RouterState) (sent : List (String × Int)) (q : String × Int), q ∈ sent →
    q ∈ (processCouplings cfg st sent couplings note velocity b).2.1 := by
  induction couplings with
  | nil => intro st sent q hq; exact hq
  | cons rc rest ih =>
    intro st sent q hq
    simp only [processCouplings]
    exact ih _ _ q (processCoupling_sent_mono cfg st sent rc note velocity b q hq)

theorem processCouplings_sent_char (cfg : Config) (couplings : List RankConfig)
    (note velocity : Int) (b : Bool) :
    ∀ (st : RouterState) (sent : List (String × Int)) (q : String × Int),
    q ∈ (processCouplings cfg st sent couplings note velocity b).2.1 →
    q ∈ sent ∨ ∃ rc ∈ couplings, couplingComputesPair cfg rc note q = true := by
  induction couplings with
  | nil => intro st sent q hq; exact Or.inl hq
  | cons rc rest ih =>
    intro st sent q hq
    simp only [processCouplings] at hq
    rcases ih _ _ q hq with h1 | ⟨rc', hrc', hc⟩
    · rcases processCoupling_sent_char cfg st sent rc note velocity b q h1 with h2 | hc
      · exact Or.inl h2
      · exact Or.inr ⟨rc, List.mem_cons_self rc rest, hc⟩
    · exact Or.inr ⟨rc', List.mem_cons_of_mem rc hrc', hc⟩

theorem processCouplings_cmds_pairs (cfg : Config) (couplings : List RankConfig)
    (note velocity : Int) (b : Bool) :
    ∀ (st : RouterState) (sent : List (String × Int)) (cmd : MidiCmd),
    cmd ∈ (processCouplings cfg st sent couplings note velocity b).2.2 →
    cmdPair cmd ∈ (processCouplings cfg st sent couplings note velocity b).2.1 ∧
      cmdPair cmd ∉ sent := by
  induction couplings with
  | nil => intro st sent cmd hcmd; exact absurd hcmd (List.not_mem_nil cmd)
  | cons rc rest ih =>
    intro st sent cmd hcmd
    simp only [processCouplings] at hcmd ⊢
    rcases List.mem_append.mp hcmd with h1 | h1
    · rcases processCoupling_spec cfg st sent rc note velocity b with h | ⟨p, _, hp, hs, hc⟩
      · rw [h] at h1; exact absurd h1 (List.not_mem_nil cmd)
      · rcases hc with ⟨he, _⟩ | ⟨cmd', he, hpair, _⟩
        · rw [he] at h1; exact absurd h1 (List.not_mem_nil cmd)
        · rw [he] at h1
          rcases List.mem_singleton.mp h1 with rfl
          refine ⟨?_, hpair ▸ hp⟩
          apply processCouplings_sent_mono
          rw [hs, hpair]
          exact List.mem_cons_self p sent
    · have := ih _ _ cmd h1
      refine ⟨this.1, fun hmem => this.2 ?_⟩
      exact processCoupling_sent_mono cfg st sent rc note velocity b _ hmem

theorem processCouplings_pairs_nodup (cfg : Config) (couplings : List RankConfig)
    (note velocity : Int) (b : Bool) :
    ∀ (st : RouterState) (sent : List (String × Int)),
    ((processCouplings cfg st sent couplings note velocity b).2.2.map cmdPair).Nodup := by
  induction couplings with
  | nil => intro st sent; exact List.nodup_nil
  | cons rc rest ih =>
    intro st sent
    simp only [processCouplings, List.map_append]
    rw [List.nodup_append]
    refine ⟨?_, ih _ _, ?_⟩
    · rcases processCoupling_spec cfg st sent rc note velocity b with h | ⟨p, _, _, _, hc⟩
      · rw [h]; exact List.nodup_nil
      · rcases hc with ⟨he, _⟩ | ⟨cmd', he, _, _⟩
        · rw [he]; exact List.nodup_nil
        · rw [he]; simp
    · intro x hx1 hx2
      rcases processCoupling_spec cfg st sent rc note velocity b with h | ⟨p, _, _, hs, hc⟩
      · rw [h] at hx1; simp at hx1
      · rcases hc with ⟨he, _⟩ | ⟨cmd', he, hpair, _⟩
        · rw [he] at hx1; simp at hx1
        · rw [he] at hx1
          rcases List.mem_map.mp hx1 with ⟨c, hc1, rfl⟩
          rcases List.mem_singleton.mp hc1 with rfl
          rcases List.mem_map.mp hx2 with ⟨c2, hc2, hpc⟩
          have h2 := (processCouplings_cmds_pairs cfg rest note velocity b _ _ c2 hc2).2
          apply h2
          rw [hpc, hpair, hs]
          exact List.mem_cons_self p sent

theorem processCouplings_from (cfg : Config) (couplings : List RankConfig)
    (note velocity : Int) (b : Bool) :
    ∀ (st : RouterState) (sent : List (String × Int)) (cmd : MidiCmd),
    cmd ∈ (processCouplings cfg st sent couplings note velocity b).2.2 →
    ∃ rc ∈ couplings, CmdFromCoupling cfg rc note velocity b cmd := by
  induction couplings with
  | nil => intro st sent cmd hcmd; exact absurd hcmd (List.not_mem_nil cmd)
  | cons rc rest ih =>
    intro st sent cmd hcmd
    simp only [processCouplings] at hcmd
    rcases List.mem_append.mp hcmd with h1 | h1
    · rcases processCoupling_spec cfg st sent rc note velocity b with h | ⟨p, _, _, _, hc⟩
      · rw [h] at h1; exact absurd h1 (List.not_mem_nil cmd)
      · rcases hc with ⟨he, _⟩ | ⟨cmd', he, _, hfrom⟩
        · rw [he] at h1; exact absurd h1 (List.not_mem_nil cmd)
        · rw [he] at h1
          rcases List.mem_singleton.mp h1 with rfl
          exact ⟨rc, List.mem_cons_self rc rest, hfrom⟩
    · rcases ih _ _ cmd h1 with ⟨rc', hrc', hfrom⟩
      exact ⟨rc', List.mem_cons_of_mem rc hrc', hfrom⟩

theorem processCouplings_exists (cfg : Config) (couplings : List RankConfig)
    (note velocity : Int) (b : Bool) :
    ∀ (st : RouterState) (sent : List (String × Int)) (p : String × Int),
    (∃ rc ∈ couplings, couplingComputesPair cfg rc note p = true) → p ∉ sent →
    rankResolves cfg p.1 = true →
    ∃ cmd ∈ (processCouplings cfg st sent couplings note velocity b).2.2,
      cmdPair cmd = p ∧ cmd.isOn = b := by
  induction couplings with
  | nil => intro st sent p hex _ _; simp at hex
  | cons rc rest ih =>
    intro st sent p hex hnot hres
    simp only [processCouplings]
    by_cases hhead : couplingComputesPair cfg rc note p = true
    · rcases processCoupling_exists cfg st sent rc note velocity b p hhead hnot hres with
        ⟨cmd, he, hpair, hon⟩
      exact ⟨cmd, List.mem_append.mpr (Or.inl (he ▸ List.mem_singleton_self cmd)),
        hpair, hon⟩
    · rcases hex with ⟨rc0, hrc0, hcomp⟩
      rcases List.mem_cons.mp hrc0 with rfl | hrest
      · exact absurd hcomp hhead
      · have hnot1 : p ∉ (processCoupling cfg st sent rc note velocity b).2.1 := by
          intro hmem
          rcases processCoupling_sent_char cfg st sent rc note velocity b p hmem with
            h1 | h1
          · exact hnot h1
          · exact hhead h1
        rcases ih _ _ p ⟨rc0, hrest, hcomp⟩ hnot1 hres with ⟨cmd, hc1, hpair, hon⟩
        exact ⟨cmd, List.mem_append.mpr (Or.inr hc1), hpair, hon⟩

theorem processStops_active_keys (cfg : Config) (division : String)
    (stop_ids : List String) (note velocity : Int) (b : Bool) :
    ∀ (st : RouterState) (sent : List (String × Int)),
    (processStops cfg st sent division stop_ids note velocity b).1.active_keys =
      st.active_keys := by
  induction stop_ids with
  | nil => intro st sent; rfl
  | cons stop_id rest ih =>
    intro st sent
    cases hsl : stopLookup cfg division stop_id with
    | none => simp only [processStops, hsl]; exact ih _ _
    | some stop_info =>
      simp only [processStops, hsl]
      rw [ih, processCouplings_active_keys]

theorem processStops_active_stops (cfg : Config) (division : String)
    (stop_ids : List String) (note velocity : Int) (b : Bool) :
    ∀ (st : RouterState) (sent : List (String × Int)),
    (processStops cfg st sent division stop_ids note velocity b).1.active_stops =
      st.active_stops := by
  induction stop_ids with
  | nil => intro st sent; rfl
  | cons stop_id rest ih =>
    intro st sent
    cases hsl : stopLookup cfg division stop_id with
    | none => simp only [processStops, hsl]; exact ih _ _
    | some stop_info =>
      simp only [processStops, hsl]
      rw [ih, processCouplings_active_stops]

theorem processStops_sent_mono (cfg : Config) (division : String)
    (stop_ids : List String) (note velocity : Int) (b : Bool) :
    ∀ (st : RouterState) (sent : List (String × Int)) (q : String × Int), q ∈ sent →
    q ∈ (processStops cfg st sent division stop_ids note velocity b).2.1 := by
  induction stop_ids with
  | nil => intro st sent q hq; exact hq
  | cons stop_id rest ih =>
    intro st sent q hq
    cases hsl : stopLookup cfg division stop_id with
    | none => simp only [processStops, hsl]; exact ih _ _ q hq
    | some stop_info =>
      simp only [processStops, hsl]
      exact ih _ _ q (processCouplings_sent_mono cfg stop_info.ranks note velocity b _ _ q hq)

theorem processStops_sent_char (cfg : Config) (division : String)
    (stop_ids : List String) (note velocity : Int) (b : Bool) :
    ∀ (st : RouterState) (sent : List (String × Int)) (q : String × Int),
    q ∈ (processStops cfg st sent division stop_ids note velocity b).2.1 →
    q ∈ sent ∨ ∃ stop_id ∈ stop_ids, stopComputesPair cfg division stop_id note q = true := by
  induction stop_ids with
  | nil => intro st sent q hq; exact Or.inl hq
  | cons stop_id rest ih =>
    intro st sent q hq
    cases hsl : stopLookup cfg division stop_id with
    | none =>
      simp only [processStops, hsl] at hq
      rcases ih _ _ q hq with h1 | ⟨sid, hsid, hc⟩
      · exact Or.inl h1
      · exact Or.inr ⟨sid, List.mem_cons_of_mem _ hsid, hc⟩
    | some stop_info =>
      simp only [processStops, hsl] at hq
      rcases ih _ _ q hq with h1 | ⟨sid, hsid, hc⟩
      · rcases processCouplings_sent_char cfg stop_info.ranks note velocity b _ _ q h1 with
          h2 | ⟨rc, hrc, hc⟩
        · exact Or.inl h2
        · refine Or.inr ⟨stop_id, List.mem_cons_self stop_id rest, ?_⟩
          simp only [stopComputesPair, hsl]
          exact List.any_eq_true.mpr ⟨rc, hrc, hc⟩
      · exact Or.inr ⟨sid, List.mem_cons_of_mem _ hsid, hc⟩

theorem processStops_cmds_pairs (cfg : Config) (division : String)
    (stop_ids : List String) (note velocity : Int) (b : Bool) :
    ∀ (st : RouterState) (sent : List (String × Int)) (cmd : MidiCmd),
    cmd ∈ (processStops cfg st sent division stop_ids note velocity b).2.2 →
    cmdPair cmd ∈ (processStops cfg st sent division stop_ids note velocity b).2.1 ∧
      cmdPair cmd ∉ sent := by
  induction stop_ids with
  | nil => intro st sent cmd hcmd; exact absurd hcmd (List.not_mem_nil cmd)
  | cons stop_id rest ih =>
    intro st sent cmd hcmd
    cases hsl : stopLookup cfg division stop_id with
    | none =>
      simp only [processStops, hsl] at hcmd ⊢
      exact ih _ _ cmd hcmd
    | some stop_info =>
      simp only [processStops, hsl] at hcmd ⊢
      rcases List.mem_append.mp hcmd with h1 | h1
      · have h2 := processCouplings_cmds_pairs cfg stop_info.ranks note velocity b _ _ cmd h1
        exact ⟨processStops_sent_mono cfg division rest note velocity b _ _ _ h2.1, h2.2⟩
      · have h2 := ih _ _ cmd h1
        refine ⟨h2.1, fun hmem => h2.2 ?_⟩
        exact processCouplings_sent_mono cfg stop_info.ranks note velocity b _ _ _ hmem

theorem processStops_pairs_nodup (cfg : Config) (division : String)
    (stop_ids : List String) (note velocity : Int) (b : Bool) :
    ∀ (st : RouterState) (sent : List (String × Int)),
    ((processStops cfg st sent division stop_ids note velocity b).2.2.map cmdPair).Nodup := by
  induction stop_ids with
  | nil => intro st sent; exact List.nodup_nil
  | cons stop_id rest ih =>
    intro st sent
    cases hsl : stopLookup cfg division stop_id with
    | none => simp only [processStops, hsl]; exact ih _ _
    | some stop_info =>
      simp only [processStops, hsl, List.map_append]
      rw [List.nodup_append]
      refine ⟨processCouplings_pairs_nodup cfg stop_info.ranks note velocity b _ _, ih _ _, ?_⟩
      intro x hx1 hx2
      rcases List.mem_map.mp hx1 with ⟨c1, hc1, rfl⟩
      rcases List.mem_map.mp hx2 with ⟨c2, hc2, hpc⟩
      have m1 := (processCouplings_cmds_pairs cfg stop_info.ranks note velocity b _ _ c1 hc1).1
      have m2 := (processStops_cmds_pairs cfg division rest note velocity b _ _ c2 hc2).2
      exact m2 (hpc ▸ m1)

theorem processStops_from (cfg : Config) (division : String)
    (stop_ids : List String) (note velocity : Int) (b : Bool) :
    ∀ (st : RouterState) (sent : List (String × Int)) (cmd : MidiCmd),
    cmd ∈ (processStops cfg st sent division stop_ids note velocity b).2.2 →
    ∃ stop_id ∈ stop_ids, ∃ stop_info, stopLookup cfg division stop_id = some stop_info ∧
      ∃ rc ∈ stop_info.ranks, CmdFromCoupling cfg rc note velocity b cmd := by
  induction stop_ids with
  | nil => intro st sent cmd hcmd; exact absurd hcmd (List.not_mem_nil cmd)
  | cons stop_id rest ih =>
    intro st sent cmd hcmd
    cases hsl : stopLookup cfg division stop_id with
    | none =>
      simp only [processStops, hsl] at hcmd
      rcases ih _ _ cmd hcmd with ⟨sid, hsid, rest_h⟩
      exact ⟨sid, List.mem_cons_of_mem _ hsid, rest_h⟩
    | some stop_info =>
      simp only [processStops, hsl] at hcmd
      rcases List.mem_append.mp hcmd with h1 | h1
      · rcases processCouplings_from cfg stop_info.ranks note velocity b _ _ cmd h1 with
          ⟨rc, hrc, hfrom⟩
        exact ⟨stop_id, List.mem_cons_self stop_id rest, stop_info, hsl, rc, hrc, hfrom⟩
      · rcases ih _ _ cmd h1 with ⟨sid, hsid, rest_h⟩
        exact ⟨sid, List.mem_cons_of_mem _ hsid, rest_h⟩

theorem processStops_exists (cfg : Config) (division : String)
    (stop_ids : List String) (note velocity : Int) (b : Bool) :
    ∀ (st : RouterState) (sent : List (String × Int)) (p : String × Int),
    (∃ stop_id ∈ stop_ids, stopComputesPair cfg division stop_id note p = true) →
    p ∉ sent → rankResolves cfg p.1 = true →
    ∃ cmd ∈ (processStops cfg st sent division stop_ids note velocity b).2.2,
      cmdPair cmd = p ∧ cmd.isOn = b := by
  induction stop_ids with
  | nil => intro st sent p hex _ _; simp at hex
  | cons stop_id rest ih =>
    intro st sent p hex hnot hres
    by_cases hhead : stopComputesPair cfg division stop_id note p = true
    · cases hsl : stopLookup cfg division stop_id with
      | none => simp [stopComputesPair, hsl] at hhead
      | some stop_info =>
        simp only [stopComputesPair, hsl] at hhead
        rcases List.any_eq_true.mp hhead with ⟨rc, hrc, hcomp⟩
        simp only [processStops, hsl]
        rcases processCouplings_exists cfg stop_info.ranks note velocity b _ sent p
          ⟨rc, hrc, hcomp⟩ hnot hres with ⟨cmd, hc1, hpair, hon⟩
        exact ⟨cmd, List.mem_append.mpr (Or.inl hc1), hpair, hon⟩
    · rcases hex with ⟨sid, hsid, hcomp⟩
      rcases List.mem_cons.mp hsid with rfl | hrest
      · exact absurd hcomp hhead
      · cases hsl : stopLookup cfg division stop_id with
        | none =>
          simp only [processStops, hsl]
          exact ih _ _ p ⟨sid, hrest, hcomp⟩ hnot hres
        | some stop_info =>
          simp only [processStops, hsl]
          have hnot1 : p ∉ (processCouplings cfg st sent stop_info.ranks note velocity b).2.1 := by
            intro hmem
            rcases processCouplings_sent_char cfg stop_info.ranks note velocity b _ _ p hmem with
              h1 | ⟨rc, hrc, hc⟩
            · exact hnot h1
            · apply hhead
              simp only [stopComputesPair, hsl]
              exact List.any_eq_true.mpr ⟨rc, hrc, hc⟩
          rcases ih _ _ p ⟨sid, hrest, hcomp⟩ hnot1 hres with ⟨cmd, hc1, hpair, hon⟩
          exact ⟨cmd, List.mem_append.mpr (Or.inr hc1), hpair, hon⟩

theorem CmdFromCoupling_isOn (cfg : Config) (rc : RankConfig) (note velocity : Int)
    (b : Bool) (cmd : MidiCmd) (h : CmdFromCoupling cfg rc note velocity b cmd) :
    cmd.isOn = b := by
  obtain ⟨_, _, _, _, _, _, _, _, hon⟩ := h
  exact hon

theorem routeNoteThroughStop_active_keys (cfg : Config) (st : RouterState)
    (stop_id : String) (note velocity : Int) (b : Bool) :
    (routeNoteThroughStop cfg st stop_id note velocity b).1.active_keys =
      st.active_keys := by
  simp only [routeNoteThroughStop]
  cases stopLookup cfg (strLower (splitFirst ':' stop_id).1) stop_id with
  | none => rfl
  | some stop_info => exact processCouplings_active_keys ..

theorem routeNoteThroughStop_active_stops (cfg : Config) (st : RouterState)
    (stop_id : String) (note velocity : Int) (b : Bool) :
    (routeNoteThroughStop cfg st stop_id note velocity b).1.active_stops =
      st.active_stops := by
  simp only [routeNoteThroughStop]
  cases stopLookup cfg (strLower (splitFirst ':' stop_id).1) stop_id with
  | none => rfl
  | some stop_info => exact processCouplings_active_stops ..

theorem routeNoteThroughStop_isOn (cfg : Config) (st : RouterState)
    (stop_id : String) (note velocity : Int) (b : Bool) (cmd : MidiCmd)
    (h : cmd ∈ (routeNoteThroughStop cfg st stop_id note velocity b).2) :
    cmd.isOn = b := by
  simp only [routeNoteThroughStop] at h
  cases hsl : stopLookup cfg (strLower (splitFirst ':' stop_id).1) stop_id with
  | none => rw [hsl] at h; exact absurd h (List.not_mem_nil cmd)
  | some stop_info =>
    rw [hsl] at h
    rcases processCouplings_from cfg stop_info.ranks note velocity b _ _ cmd h with
      ⟨rc, _, hfrom⟩
    exact CmdFromCoupling_isOn cfg rc note velocity b cmd hfrom

theorem replayKeys_active_keys (cfg : Config) (internal_id : String)
    (keys : List (String × Int)) : ∀ (st : RouterState),
    (replayKeys cfg st internal_id keys).1.active_keys = st.active_keys := by
  induction keys with
  | nil => intro st; rfl
  | cons k rest ih =>
    intro st
    cases k with
    | mk d n =>
      simp only [replayKeys]
      rw [ih, routeNoteThroughStop_active_keys]

theorem replayKeys_active_stops (cfg : Config) (internal_id : String)
    (keys : List (String × Int)) : ∀ (st : RouterState),
    (replayKeys cfg st internal_id keys).1.active_stops = st.active_stops := by
  induction keys with
  | nil => intro st; rfl
  | cons k rest ih =>
    intro st
    cases k with
    | mk d n =>
      simp only [replayKeys]
      rw [ih, routeNoteThroughStop_active_stops]

theorem replayKeys_isOn (cfg : Config) (internal_id : String)
    (keys : List (String × Int)) : ∀ (st : RouterState) (cmd : MidiCmd),
    cmd ∈ (replayKeys cfg st internal_id keys).2 → cmd.isOn = true := by
  induction keys with
  | nil => intro st cmd h; exact absurd h (List.not_mem_nil cmd)
  | cons k rest ih =>
    intro st cmd h
    cases k with
    | mk d n =>
      simp only [replayKeys] at h
      rcases List.mem_append.mp h with h1 | h1
      · exact routeNoteThroughStop_isOn cfg st internal_id n 64 true cmd h1
      · exact ih _ cmd h1

theorem silenceKeys_active_keys (cfg : Config) (internal_id : String)
    (keys : List (String × Int)) : ∀ (st : RouterState),
    (silenceKeys cfg st internal_id keys).1.active_keys = st.active_keys := by
  induction keys with
  | nil => intro st; rfl
  | cons k rest ih =>
    intro st
    cases k with
    | mk d n =>
      simp only [silenceKeys]
      rw [ih, routeNoteThroughStop_active_keys]

theorem silenceKeys_active_stops (cfg : Config) (internal_id : String)
    (keys : List (String × Int)) : ∀ (st : RouterState),
    (silenceKeys cfg st internal_id keys).1.active_stops = st.active_stops := by
  induction keys with
  | nil => intro st; rfl
  | cons k rest ih =>
    intro st
    cases k with
    | mk d n =>
      simp only [silenceKeys]
      rw [ih, routeNoteThroughStop_active_stops]

theorem silenceKeys_isOn (cfg : Config) (internal_id : String)
    (keys : List (String × Int)) : ∀ (st : RouterState) (cmd : MidiCmd),
    cmd ∈ (silenceKeys cfg st internal_id keys).2 → cmd.isOn = false := by
  induction keys with
  | nil => intro st cmd h; exact absurd h (List.not_mem_nil cmd)
  | cons k rest ih =>
    intro st cmd h
    cases k with
    | mk d n =>
      simp only [silenceKeys] at h
      rcases List.mem_append.mp h with h1 | h1
      · exact routeNoteThroughStop_isOn cfg st internal_id n 0 false cmd h1
      · exact ih _ cmd h1

theorem process_note_off_active_keys (cfg : Config) (st : RouterState)
    (division : String) (note : Int) :
    (process_note_off cfg st division note).1.active_keys = st.active_keys := by
  simp only [process_note_off]
  split
  · rfl
  · exact processStops_active_keys ..

theorem process_note_on_active_keys (cfg : Config) (st : RouterState)
    (division : String) (note velocity : Int) :
    (process_note_on cfg st division note velocity).1.active_keys = st.active_keys := by
  simp only [process_note_on]
  split
  · rfl
  · exact processStops_active_keys ..

theorem count_one_of_nodup {α : Type} [BEq α] [LawfulBEq α] {l : List α} {a : α}
    (d : l.Nodup) (h : a ∈ l) : l.count a = 1 := by
  induction l with
  | nil => exact absurd h (List.not_mem_nil a)
  | cons x xs ih =>
    rw [List.count_cons]
    rcases List.mem_cons.mp h with rfl | hxs
    · have h0 : xs.count a = 0 :=
        List.count_eq_zero.mpr (List.nodup_cons.mp d).1
      simp [h0]
    · have hne : ¬a = x := by
        intro hax
        exact (List.nodup_cons.mp d).1 (hax ▸ hxs)
      have h1 : xs.count a = 1 := ih (List.nodup_cons.mp d).2 hxs
      have hne2 : ¬x = a := fun hxa => hne (Eq.symm hxa)
      simp [h1, hne2]

theorem process_note_on_from (cfg : Config) (st : RouterState)
    (division0 : String) (note velocity : Int) (cmd : MidiCmd)
    (h : cmd ∈ (process_note_on cfg st division0 note velocity).2) :
    ∃ stop_id ∈ activeDivisionStops st (strLower division0),
      ∃ stop_info, stopLookup cfg (strLower division0) stop_id = some stop_info ∧
      ∃ rc ∈ stop_info.ranks, CmdFromCoupling cfg rc note velocity true cmd := by
  simp only [process_note_on] at h
  split at h
  · exact absurd h (List.not_mem_nil cmd)
  · exact processStops_from cfg (strLower division0)
      (activeDivisionStops st (strLower division0)) note velocity true st [] cmd h

/-- C1: for every key-down event processed with an active stop, every emitted
command arises from some active stop's rank coupling addressing exactly the
rank the command targets (cmd.rank = rc.rank), its note equals
played_note + coupling transpose + (rank pitch_reference - 60), and it passed
that same rank's range check (no lower bound or note ≥ first_note, and no
upper bound or note ≤ last_note); hence a computed note outside its rank's
range produces no command to that rank, regardless of how many stops compute
it. -/
theorem C1_pitch_mapping_and_range (cfg : Config) (st : RouterState)
    (division0 : String) (note velocity : Int) (cmd : MidiCmd)
    (h : cmd ∈ (process_note_on cfg st division0 note velocity).2) :
    ∃ stop_id ∈ activeDivisionStops st (strLower division0),
      ∃ stop_info, stopLookup cfg (strLower division0) stop_id = some stop_info ∧
      ∃ rc ∈ stop_info.ranks, ∃ rank_info c4,
        cmd.rank = rc.rank ∧
        dictGet cfg.ranks rc.rank = some rank_info ∧
        rank_info.c4_pitch_note = some c4 ∧
        cmd.note = note + rc.transpose.getD 0 + (c4 - 60) ∧
        rankNoteInRange rank_info cmd.note = true ∧
        cmd.isOn = true := by
  rcases process_note_on_from cfg st division0 note velocity cmd h with
    ⟨stop_id, hsid, stop_info, hsl, rc, hrc, rank_info, c4, hri, hc4, hrank, hnote,
      hrange, _, hon⟩
  exact ⟨stop_id, hsid, stop_info, hsl, rc, hrc, rank_info, c4, hrank, hri, hc4,
    hnote, hrange, hon⟩

/-- C3: within a single key-down event, if two distinct active stops on the
division map the played note to the same (rank_id, rank_native_note) pair
(and the rank resolves to an output), exactly one note-on command is emitted
for that pair. -/
theorem C3_dedup_single_emission (cfg : Config) (st : RouterState)
    (division0 : String) (note velocity : Int) (p : String × Int)
    (stop_a stop_b : String)
    (ha : stop_a ∈ activeDivisionStops st (strLower division0))
    (hb : stop_b ∈ activeDivisionStops st (strLower division0))
    (hab : stop_a ≠ stop_b)
    (hca : stopComputesPair cfg (strLower division0) stop_a note p = true)
    (hcb : stopComputesPair cfg (strLower division0) stop_b note p = true)
    (hres : rankResolves cfg p.1 = true) :
    ((process_note_on cfg st division0 note velocity).2.map cmdPair).count p = 1 ∧
    ∀ cmd ∈ (process_note_on cfg st division0 note velocity).2, cmd.isOn = true := by
  have hne : activeDivisionStops st (strLower division0) ≠ [] := by
    intro hnil
    rw [hnil] at ha
    exact absurd ha (List.not_mem_nil _)
  constructor
  · simp only [process_note_on]
    rw [if_neg hne]
    apply count_one_of_nodup
    · exact processStops_pairs_nodup cfg (strLower division0) _ note velocity true st []
    · rcases processStops_exists cfg (strLower division0)
        (activeDivisionStops st (strLower division0)) note velocity true st [] p
        ⟨stop_a, ha, hca⟩ (List.not_mem_nil p) hres with ⟨cmd, hc, hpair, _⟩
      exact List.mem_map.mpr ⟨cmd, hc, hpair⟩
  · intro cmd hcmd
    rcases process_note_on_from cfg st division0 note velocity cmd hcmd with
      ⟨_, _, _, _, rc, _, hfrom⟩
    exact CmdFromCoupling_isOn cfg rc note velocity true cmd hfrom

/-- C6: every note-on sent to a rank carries the input velocity clamped to
the [velocity_min, velocity_max] of the very coupling that emitted it (the
coupling addressing the command's rank and producing its note); equal bounds
yield that fixed velocity for any input velocity 1-127, and bounds [20, 100]
clamp input 10 to 20 and input 127 to 100. -/
theorem C6_velocity_clamping (cfg : Config) (st : RouterState)
    (division0 : String) (note velocity : Int) (cmd : MidiCmd)
    (h : cmd ∈ (process_note_on cfg st division0 note velocity).2) :
    (∃ stop_id ∈ activeDivisionStops st (strLower division0),
      ∃ stop_info, stopLookup cfg (strLower division0) stop_id = some stop_info ∧
      ∃ rc ∈ stop_info.ranks, ∃ rank_info c4,
        cmd.rank = rc.rank ∧
        dictGet cfg.ranks rc.rank = some rank_info ∧
        rank_info.c4_pitch_note = some c4 ∧
        cmd.note = note + rc.transpose.getD 0 + (c4 - 60) ∧
        cmd.velocity = clampVelocity rc velocity) ∧
    (∀ rc : RankConfig, rc.velocity_min = some 80 → rc.velocity_max = some 80 →
      ∀ v : Int, 1 ≤ v → v ≤ 127 → clampVelocity rc v = 80) ∧
    (∀ rc : RankConfig, rc.velocity_min = some 20 → rc.velocity_max = some 100 →
      clampVelocity rc 10 = 20 ∧ clampVelocity rc 127 = 100) := by
  refine ⟨?_, ?_, ?_⟩
  · rcases process_note_on_from cfg st division0 note velocity cmd h with
      ⟨stop_id, hsid, stop_info, hsl, rc, hrc, rank_info, c4, hri, hc4, hrank, hnote,
        _, hvel, _⟩
    rw [if_pos rfl] at hvel
    exact ⟨stop_id, hsid, stop_info, hsl, rc, hrc, rank_info, c4, hrank, hri, hc4,
      hnote, hvel⟩
  · intro rc h1 h2 v _ _
    simp only [clampVelocity, h1, h2, Option.getD_some]
    omega
  · intro rc h1 h2
    simp only [clampVelocity, h1, h2, Option.getD_some]
    omega

/-- C7: activating an already-active stop is a no-op: the returned state is
unchanged (in particular SoundingRankNoteSet and the active stop set), no
note-on commands are emitted, and the call reports success. -/
theorem C7_activate_idempotent (cfg : Config) (st : RouterState)
    (stop_id division : String) (hdiv : findStopDivision cfg stop_id = some division)
    (hactive : (division ++ ":" ++ stop_id) ∈ st.active_stops) :
    activate_stop cfg st stop_id = (st, [], true) := by
  simp only [activate_stop, hdiv, setAdd]
  rw [if_pos hactive, if_pos hactive]

/-- C8: deactivating a stop that exists in the catalog but is not active
leaves the whole state unchanged (active stop set, HeldKeySet and
SoundingRankNoteSet), emits no commands, and reports non-success through the
Actions facade. -/
theorem C8_deactivate_inactive_noop (cfg : Config) (st : RouterState)
    (stop_id sid division : String)
    (hres : resolveStopId cfg stop_id = some sid)
    (hdiv : findStopDivision cfg sid = some division)
    (hinactive : (division ++ ":" ++ sid) ∉ st.active_stops) :
    actions_deactivate_stop cfg st stop_id = (st, [], false) := by
  simp only [actions_deactivate_stop, hres, deactivate_stop, hdiv]
  rw [if_neg hinactive]

/-- C2: activating a previously inactive stop while keys are held on its
division reports success, adds the stop to the active set, and immediately
replays every currently held key of that division through only the newly
activated stop's couplings at the fixed default velocity 64, producing
note-on commands. -/
theorem C2_retrigger_on_activate (cfg : Config) (st : RouterState)
    (stop_id division : String)
    (hdiv : findStopDivision cfg stop_id = some division)
    (hinactive : (division ++ ":" ++ stop_id) ∉ st.active_stops) :
    activate_stop cfg st stop_id =
      ((replayKeys cfg
          { st with active_stops := st.active_stops ++ [division ++ ":" ++ stop_id] }
          (division ++ ":" ++ stop_id)
          (st.active_keys.filter (fun p => p.1 = division))).1,
       (replayKeys cfg
          { st with active_stops := st.active_stops ++ [division ++ ":" ++ stop_id] }
          (division ++ ":" ++ stop_id)
          (st.active_keys.filter (fun p => p.1 = division))).2,
       true) ∧
    (activate_stop cfg st stop_id).1.active_stops =
      st.active_stops ++ [division ++ ":" ++ stop_id] ∧
    (activate_stop cfg st stop_id).1.active_keys = st.active_keys ∧
    (∀ cmd ∈ (activate_stop cfg st stop_id).2.1, cmd.isOn = true) := by
  have hmain : activate_stop cfg st stop_id =
      ((replayKeys cfg
          { st with active_stops := st.active_stops ++ [division ++ ":" ++ stop_id] }
          (division ++ ":" ++ stop_id)
          (st.active_keys.filter (fun p => p.1 = division))).1,
       (replayKeys cfg
          { st with active_stops := st.active_stops ++ [division ++ ":" ++ stop_id] }
          (division ++ ":" ++ stop_id)
          (st.active_keys.filter (fun p => p.1 = division))).2,
       true) := by
    simp only [activate_stop, hdiv, setAdd]
    rw [if_neg hinactive, if_neg hinactive]
  refine ⟨hmain, ?_, ?_, ?_⟩
  · rw [hmain]
    simp only [replayKeys_active_stops]
  · rw [hmain]
    simp only [replayKeys_active_keys]
  · intro cmd hcmd
    rw [hmain] at hcmd
    exact replayKeys_isOn cfg (division ++ ":" ++ stop_id) _ _ cmd hcmd

/-- C4, counterexample to the claim as stated: with stops A and B both active
on the great division and both coupling rank R1, and key 60 held, deactivating
A emits a note-off for the pair (R1, 60) even though still-active stop B also
produces that sounding note, which the claim says must not be silenced. -/
theorem C4_counterexample :
    ("great:B" ∈ st1.active_stops) ∧
    stopComputesPair cfg1 "great" "great:B" 60 ("R1", 60) = true ∧
    (("great", (60 : Int)) ∈ st1.active_keys) ∧
    (∃ cmd, cmd ∈ (deactivate_stop cfg1 st1 "A").2.1 ∧
      cmdPair cmd = ("R1", 60) ∧ cmd.isOn = false) := by
  refine ⟨by decide, by decide, by decide,
    ⟨⟨"R1", "flu", 5, 60, 0, false⟩, by decide, by decide, rfl⟩⟩

/-- C4, amended: when an active stop is deactivated while keys are held on
its division, every held key of that division is replayed as a note-off
through the deactivated stop's couplings unconditionally — so ranks
exclusively fed by the stop go silent, but the code does not check other
still-active stops first, so notes they still produce receive note-offs as
well.  The stop is removed from the active set and HeldKeySet is unchanged. -/
theorem C4_amended_unconditional_silence (cfg : Config) (st : RouterState)
    (stop_id division : String)
    (hdiv : findStopDivision cfg stop_id = some division)
    (hactive : (division ++ ":" ++ stop_id) ∈ st.active_stops) :
    deactivate_stop cfg st stop_id =
      ({ (silenceKeys cfg st (division ++ ":" ++ stop_id)
            (st.active_keys.filter (fun p => p.1 = division))).1 with
          active_stops := setRemove st.active_stops (division ++ ":" ++ stop_id) },
       (silenceKeys cfg st (division ++ ":" ++ stop_id)
          (st.active_keys.filter (fun p => p.1 = division))).2,
       true) ∧
    (deactivate_stop cfg st stop_id).1.active_stops =
      setRemove st.active_stops (division ++ ":" ++ stop_id) ∧
    (deactivate_stop cfg st stop_id).1.active_keys = st.active_keys ∧
    (∀ cmd ∈ (deactivate_stop cfg st stop_id).2.1, cmd.isOn = false) := by
  have hmain : deactivate_stop cfg st stop_id =
      ({ (silenceKeys cfg st (division ++ ":" ++ stop_id)
            (st.active_keys.filter (fun p => p.1 = division))).1 with
          active_stops := setRemove st.active_stops (division ++ ":" ++ stop_id) },
       (silenceKeys cfg st (division ++ ":" ++ stop_id)
          (st.active_keys.filter (fun p => p.1 = division))).2,
       true) := by
    simp only [deactivate_stop, hdiv]
    rw [if_pos hactive]
    rw [silenceKeys_active_stops]
  refine ⟨hmain, ?_, ?_, ?_⟩
  · rw [hmain]
  · rw [hmain]
    simp only [silenceKeys_active_keys]
  · intro cmd hcmd
    rw [hmain] at hcmd
    exact silenceKeys_isOn cfg (division ++ ":" ++ stop_id) _ _ cmd hcmd

/-- Test fixture: state in which the great PRINCIPAL_8 stop is active under
the router's internal id convention. -/
def st5 : RouterState := ⟨["great:PRINCIPAL_8"], [], []⟩

/-- C5, exhibiting the code bug: the stop PRINCIPAL_8 exists in the catalog
under the great division and note 36 on the stop-board channel 5 is mapped to
it, yet processing the draw (note-on) leaves the state unchanged — no stop is
activated — because the input mapper passes "great:PRINCIPAL_8" to
`activate_stop`, whose catalog lookup expects the bare stop id; the cancel
(note-off) on an active stop likewise changes nothing. -/
theorem C5_stop_event_has_no_effect :
    findStopDivision cfg1 "PRINCIPAL_8" = some "great" ∧
    icfg1.stop_channel = some 5 ∧
    dictGet icfg1.stop_mappings 36 = some ("great", "PRINCIPAL_8") ∧
    process_message icfg1 cfg1 st0 ⟨.note_on, 5, 36, 100⟩ = (st0, []) ∧
    (process_message icfg1 cfg1 st0 ⟨.note_on, 5, 36, 100⟩).1.active_stops = [] ∧
    process_message icfg1 cfg1 st5 ⟨.note_off, 5, 36, 0⟩ = (st5, []) := by
  decide

/-- C9: from any state with a non-empty SoundingRankNoteSet, `panic()`
empties HeldKeySet and SoundingRankNoteSet (leaving the drawn stops as they
are, so the effect is independent of prior stop state) and sends
all-notes-off (CC 123), all-sound-off (CC 120) and reset-all-controllers
(CC 121) on every channel 0-15 of every configured output. -/
theorem C9_panic_clears_and_broadcasts (cfg : Config) (st : RouterState)
    (hne : st.active_rank_notes ≠ []) :
    (panic cfg st).1.active_keys = [] ∧
    (panic cfg st).1.active_rank_notes = [] ∧
    (panic cfg st).1.active_stops = st.active_stops ∧
    ∀ output ∈ cfg.midi_outputs, ∀ ch : Int, 0 ≤ ch → ch ≤ 15 →
      (⟨output, ch, 123, 0⟩ : CCCmd) ∈ (panic cfg st).2 ∧
      (⟨output, ch, 120, 0⟩ : CCCmd) ∈ (panic cfg st).2 ∧
      (⟨output, ch, 121, 0⟩ : CCCmd) ∈ (panic cfg st).2 := by
  refine ⟨rfl, rfl, rfl, ?_⟩
  intro output hout ch h0 h15
  have hch : ch ∈ chans16 := by
    have he : chans16 =
        [0, 1, 2, 3, 4, 5, 6, 7, 8, 9, 10, 11, 12, 13, 14, 15] := by decide
    rw [he]
    simp only [List.mem_cons, List.not_mem_nil, or_false]
    omega
  refine ⟨?_, ?_, ?_⟩ <;>
    exact List.mem_flatMap.mpr ⟨output, hout,
      List.mem_flatMap.mpr ⟨ch, hch, by simp⟩⟩

/-- C10: at the input-mapper boundary, a note_on with velocity 0 on a manual
or pedal channel whose key range contains the note is treated exactly as a
note_off: the processing result equals that of the corresponding note_off
message, the key is removed from HeldKeySet, and note-off routing is
performed. -/
theorem C10_velocity_zero_is_release (icfg : InputConfig) (cfg : Config)
    (st : RouterState) (ch note : Int)
    (h : (∃ d r, dictGet icfg.manual_channels ch = some d ∧
            dictGet icfg.manual_ranges ch = some r ∧ r.1 ≤ note ∧ note ≤ r.2) ∨
         (dictGet icfg.manual_channels ch = none ∧ icfg.pedal_channel = some ch ∧
            ∃ r, icfg.pedal_range = some r ∧ r.1 ≤ note ∧ note ≤ r.2)) :
    process_message icfg cfg st ⟨.note_on, ch, note, 0⟩ =
      process_message icfg cfg st ⟨.note_off, ch, note, 0⟩ ∧
    ∃ d, process_message icfg cfg st ⟨.note_on, ch, note, 0⟩ =
        process_note_off cfg
          { st with active_keys := keySetRemove st.active_keys (d, note) } d note ∧
      (process_message icfg cfg st ⟨.note_on, ch, note, 0⟩).1.active_keys =
        keySetRemove st.active_keys (d, note) := by
  rcases h with ⟨d, r, h1, h2, h3, h4⟩ | ⟨h1, h2, r, hr, h3, h4⟩
  · rcases r with ⟨fk, lk⟩
    have hkey : process_message icfg cfg st ⟨.note_on, ch, note, 0⟩ =
        process_note_off cfg
          { st with active_keys := keySetRemove st.active_keys (d, note) } d note := by
      simp [process_message, h1, h2, h3, h4, handle_key_event]
    have hkey2 : process_message icfg cfg st ⟨.note_off, ch, note, 0⟩ =
        process_note_off cfg
          { st with active_keys := keySetRemove st.active_keys (d, note) } d note := by
      simp [process_message, h1, h2, h3, h4, handle_key_event]
    refine ⟨hkey.trans hkey2.symm, d, hkey, ?_⟩
    rw [hkey, process_note_off_active_keys]
  · rcases r with ⟨fk, lk⟩
    have hkey : process_message icfg cfg st ⟨.note_on, ch, note, 0⟩ =
        process_note_off cfg
          { st with active_keys := keySetRemove st.active_keys ("pedal", note) }
          "pedal" note := by
      simp [process_message, h1, h2, hr, h3, h4, handle_key_event]
    have hkey2 : process_message icfg cfg st ⟨.note_off, ch, note, 0⟩ =
        process_note_off cfg
          { st with active_keys := keySetRemove st.active_keys ("pedal", note) }
          "pedal" note := by
      simp [process_message, h1, h2, hr, h3, h4, handle_key_event]
    refine ⟨hkey.trans hkey2.symm, "pedal", hkey, ?_⟩
    rw [hkey, process_note_off_active_keys]

/-- Test fixture: the command emitted for key 60 at velocity 100 on the
fixture catalog. -/
def cmd1 : MidiCmd := ⟨"R1", "flu", 5, 60, 100, true⟩

/-- Test fixture: st1 with one sounding rank note recorded. -/
def st9 : RouterState := { st1 with active_rank_notes := [(("flu", 5, 60), "R1")] }

theorem C1_witness :
    cmd1 ∈ (process_note_on cfg1 st1 "great" 60 100).2 ∧
    (∃ stop_id ∈ activeDivisionStops st1 (strLower "great"),
      ∃ stop_info, stopLookup cfg1 (strLower "great") stop_id = some stop_info ∧
      ∃ rc ∈ stop_info.ranks, ∃ rank_info c4,
        cmd1.rank = rc.rank ∧
        dictGet cfg1.ranks rc.rank = some rank_info ∧
        rank_info.c4_pitch_note = some c4 ∧
        cmd1.note = 60 + rc.transpose.getD 0 + (c4 - 60) ∧
        rankNoteInRange rank_info cmd1.note = true ∧
        cmd1.isOn = true) :=
  ⟨by decide, C1_pitch_mapping_and_range cfg1 st1 "great" 60 100 cmd1 (by decide)⟩

theorem C2_witness :
    findStopDivision cfg1 "PRINCIPAL_8" = some "great" ∧
    ("great" ++ ":" ++ "PRINCIPAL_8") ∉ st1.active_stops ∧
    (activate_stop cfg1 st1 "PRINCIPAL_8" =
      ((replayKeys cfg1
          { st1 with active_stops := st1.active_stops ++ ["great" ++ ":" ++ "PRINCIPAL_8"] }
          ("great" ++ ":" ++ "PRINCIPAL_8")
          (st1.active_keys.filter (fun p => p.1 = "great"))).1,
       (replayKeys cfg1
          { st1 with active_stops := st1.active_stops ++ ["great" ++ ":" ++ "PRINCIPAL_8"] }
          ("great" ++ ":" ++ "PRINCIPAL_8")
          (st1.active_keys.filter (fun p => p.1 = "great"))).2,
       true) ∧
    (activate_stop cfg1 st1 "PRINCIPAL_8").1.active_stops =
      st1.active_stops ++ ["great" ++ ":" ++ "PRINCIPAL_8"] ∧
    (activate_stop cfg1 st1 "PRINCIPAL_8").1.active_keys = st1.active_keys ∧
    (∀ cmd ∈ (activate_stop cfg1 st1 "PRINCIPAL_8").2.1, cmd.isOn = true)) :=
  ⟨by decide, by decide,
    C2_retrigger_on_activate cfg1 st1 "PRINCIPAL_8" "great" (by decide) (by decide)⟩

theorem C3_witness :
    "great:A" ∈ activeDivisionStops st1 (strLower "great") ∧
    "great:B" ∈ activeDivisionStops st1 (strLower "great") ∧
    stopComputesPair cfg1 (strLower "great") "great:A" 60 ("R1", 60) = true ∧
    stopComputesPair cfg1 (strLower "great") "great:B" 60 ("R1", 60) = true ∧
    rankResolves cfg1 ("R1", (60 : Int)).1 = true ∧
    (((process_note_on cfg1 st1 "great" 60 100).2.map cmdPair).count ("R1", 60) = 1 ∧
      ∀ cmd ∈ (process_note_on cfg1 st1 "great" 60 100).2, cmd.isOn = true) :=
  ⟨by decide, by decide, by decide, by decide, by decide,
    C3_dedup_single_emission cfg1 st1 "great" 60 100 ("R1", 60) "great:A" "great:B"
      (by decide) (by decide) (by decide) (by decide) (by decide) (by decide)⟩

theorem C4_witness :
    findStopDivision cfg1 "A" = some "great" ∧
    ("great" ++ ":" ++ "A") ∈ st1.active_stops ∧
    (deactivate_stop cfg1 st1 "A" =
      ({ (silenceKeys cfg1 st1 ("great" ++ ":" ++ "A")
            (st1.active_keys.filter (fun p => p.1 = "great"))).1 with
          active_stops := setRemove st1.active_stops ("great" ++ ":" ++ "A") },
       (silenceKeys cfg1 st1 ("great" ++ ":" ++ "A")
          (st1.active_keys.filter (fun p => p.1 = "great"))).2,
       true) ∧
    (deactivate_stop cfg1 st1 "A").1.active_stops =
      setRemove st1.active_stops ("great" ++ ":" ++ "A") ∧
    (deactivate_stop cfg1 st1 "A").1.active_keys = st1.active_keys ∧
    (∀ cmd ∈ (deactivate_stop cfg1 st1 "A").2.1, cmd.isOn = false)) :=
  ⟨by decide, by decide,
    C4_amended_unconditional_silence cfg1 st1 "A" "great" (by decide) (by decide)⟩

theorem C6_witness :
    cmd1 ∈ (process_note_on cfg1 st1 "great" 60 100).2 ∧
    ((∃ stop_id ∈ activeDivisionStops st1 (strLower "great"),
        ∃ stop_info, stopLookup cfg1 (strLower "great") stop_id = some stop_info ∧
        ∃ rc ∈ stop_info.ranks, ∃ rank_info c4,
          cmd1.rank = rc.rank ∧
          dictGet cfg1.ranks rc.rank = some rank_info ∧
          rank_info.c4_pitch_note = some c4 ∧
          cmd1.note = 60 + rc.transpose.getD 0 + (c4 - 60) ∧
          cmd1.velocity = clampVelocity rc 100) ∧
      (∀ rc : RankConfig, rc.velocity_min = some 80 → rc.velocity_max = some 80 →
        ∀ v : Int, 1 ≤ v → v ≤ 127 → clampVelocity rc v = 80) ∧
      (∀ rc : RankConfig, rc.velocity_min = some 20 → rc.velocity_max = some 100 →
        clampVelocity rc 10 = 20 ∧ clampVelocity rc 127 = 100)) :=
  ⟨by decide, C6_velocity_clamping cfg1 st1 "great" 60 100 cmd1 (by decide)⟩

theorem C7_witness :
    findStopDivision cfg1 "A" = some "great" ∧
    ("great" ++ ":" ++ "A") ∈ st1.active_stops ∧
    activate_stop cfg1 st1 "A" = (st1, [], true) :=
  ⟨by decide, by decide, C7_activate_idempotent cfg1 st1 "A" "great" (by decide) (by decide)⟩

theorem C8_witness :
    resolveStopId cfg1 "principal_8" = some "PRINCIPAL_8" ∧
    findStopDivision cfg1 "PRINCIPAL_8" = some "great" ∧
    ("great" ++ ":" ++ "PRINCIPAL_8") ∉ st1.active_stops ∧
    actions_deactivate_stop cfg1 st1 "principal_8" = (st1, [], false) :=
  ⟨by decide, by decide, by decide,
    C8_deactivate_inactive_noop cfg1 st1 "principal_8" "PRINCIPAL_8" "great"
      (by decide) (by decide) (by decide)⟩

theorem C9_witness :
    st9.active_rank_notes ≠ [] ∧
    ((panic cfg1 st9).1.active_keys = [] ∧
      (panic cfg1 st9).1.active_rank_notes = [] ∧
      (panic cfg1 st9).1.active_stops = st9.active_stops ∧
      ∀ output ∈ cfg1.midi_outputs, ∀ ch : Int, 0 ≤ ch → ch ≤ 15 →
        (⟨output, ch, 123, 0⟩ : CCCmd) ∈ (panic cfg1 st9).2 ∧
        (⟨output, ch, 120, 0⟩ : CCCmd) ∈ (panic cfg1 st9).2 ∧
        (⟨output, ch, 121, 0⟩ : CCCmd) ∈ (panic cfg1 st9).2) :=
  ⟨by decide, C9_panic_clears_and_broadcasts cfg1 st9 (by decide)⟩

theorem C10_witness :
    dictGet icfg1.manual_channels 0 = some "great" ∧
    dictGet icfg1.manual_ranges 0 = some (36, 96) ∧
    (process_message icfg1 cfg1 st1 ⟨.note_on, 0, 60, 0⟩ =
        process_message icfg1 cfg1 st1 ⟨.note_off, 0, 60, 0⟩ ∧
      ∃ d, process_message icfg1 cfg1 st1 ⟨.note_on, 0, 60, 0⟩ =
          process_note_off cfg1
            { st1 with active_keys := keySetRemove st1.active_keys (d, 60) } d 60 ∧
        (process_message icfg1 cfg1 st1 ⟨.note_on, 0, 60, 0⟩).1.active_keys =
          keySetRemove st1.active_keys (d, 60)) :=
  ⟨by decide, by decide,
    C10_velocity_zero_is_release icfg1 cfg1 st1 0 60
      (Or.inl ⟨"great", (36, 96), by decide, by decide, by decide, by decide⟩)⟩

end Organ
